import Mathlib

/-!
# Echoes landing page: the beta-signup submission workflow

A shallow embedding of the form-handling section of `src/script.js`
(`showMessage`, `isValidEmail`, `setLoading`, `handleSubmit`, the Supabase
initialisation and the `keydown` handler), followed by theorems about it.

Modelling conventions.

* A JavaScript string is a Lean `String`.  The only character tests the script
  performs are "is it white space", "is it `@`", "is it `.`"; all of these
  characters lie in the Basic Multilingual Plane, so reading a string by code
  points or by UTF-16 code units gives the same answers.
* The DOM elements the script touches are the fields of `Page`.  Every call the
  script makes on a collaborator (the event, the store, the console, the
  browser) is appended to `Page.calls`, in program order, so that "is never
  invoked" and "happens before" are statements about that log.
* The client is a function `Store`: `supabase.from(table)` throws or returns a
  query builder (`FromResult`), and the builder's `insert(rows)` answers with a
  `StoreResponse`, the value the `await` produces or the exception it raises.
  `new Date().toISOString()` is the parameter `isoNow`.
* `handleSubmit` is an `async` function.  `handleSubmitToAwait` runs it up to
  the `await`, giving the page as it is when `insert` is invoked, and
  `handleSubmitFromAwait` runs the rest once the answer is there.  In `run` a
  submission is one action: nothing is interleaved between the two halves.
* Time is a natural number of milliseconds; `setTimeout` appends a due time to
  `Page.timers`, and `advance` lets time pass and runs the callbacks that fall
  due.
-/

namespace Echoes

/-! ## Strings: white space, `trim`, and the regular expression -/

/-- The code points matched by `\s` in a JavaScript regular expression and
stripped by `String.prototype.trim`: WhiteSpace and LineTerminator of
ECMA-262 (TAB, LF, VT, FF, CR, SP, NBSP, the other `Zs` spaces, LS, PS and
ZWNBSP). -/
def isWhiteSpace (c : Char) : Bool :=
  let n := c.toNat
  n == 0x09 || n == 0x0A || n == 0x0B || n == 0x0C || n == 0x0D || n == 0x20 ||
  n == 0xA0 || n == 0x1680 || (decide (0x2000 ≤ n) && decide (n ≤ 0x200A)) ||
  n == 0x2028 || n == 0x2029 || n == 0x202F || n == 0x205F || n == 0x3000 ||
  n == 0xFEFF

/-- On characters, `trim` drops white space from both ends. -/
def trimChars (cs : List Char) : List Char :=
  ((cs.dropWhile isWhiteSpace).reverse.dropWhile isWhiteSpace).reverse

/-- The method `String.prototype.trim`. -/
def jsTrim (s : String) : String :=
  ⟨trimChars s.data⟩

/-- How often an atom of a pattern may repeat: exactly once, or `+`. -/
inductive Quant where
  | one
  | plus
  deriving DecidableEq, Repr

/-- One atom of a pattern: a character class with its quantifier. -/
structure Atom where
  cls : Char → Bool
  quant : Quant

/-- Backtracking match of a sequence of atoms against the whole of the
remaining input: the pattern is anchored by `^` and `$`, so the input must be
consumed exactly.  A `+` atom is greedy: it first tries to take one more
character and falls back to the rest of the pattern. -/
def matchAtoms : List Atom → List Char → Bool
  | [], s => s.isEmpty
  | _ :: _, [] => false
  | a :: rest, c :: cs =>
    match a.quant with
    | .one => a.cls c && matchAtoms rest cs
    | .plus => a.cls c && (matchAtoms (a :: rest) cs || matchAtoms rest cs)

/-- The class `[^\s@]`. -/
def notSpaceNorAt (c : Char) : Bool :=
  !(isWhiteSpace c || c == '@')

/-- The pattern `/^[^\s@]+@[^\s@]+\.[^\s@]+$/`. -/
def emailRegex : List Atom :=
  [⟨notSpaceNorAt, .plus⟩, ⟨fun c => c == '@', .one⟩, ⟨notSpaceNorAt, .plus⟩,
   ⟨fun c => c == '.', .one⟩, ⟨notSpaceNorAt, .plus⟩]

/-- The function `isValidEmail(email)`: `emailRegex.test(email)`. -/
def isValidEmail (email : String) : Bool :=
  matchAtoms emailRegex email.data

/-- The shape of an accepted address in the words of the specification: no
white space, exactly one `@`, something before the `@`, and after the `@` a
`.` with something before it and something after it. -/
def EmailShape (s : List Char) : Prop :=
  (∀ c ∈ s, isWhiteSpace c = false) ∧ s.count '@' = 1 ∧
  ∃ l rest, s = l ++ '@' :: rest ∧ l ≠ [] ∧
    ∃ d t, rest = d ++ '.' :: t ∧ d ≠ [] ∧ t ≠ []

/-! ## The page, the store and the calls the script makes -/

/-- The object handed to `insert`: `email` and `signed_up_at` always, `name`
only when one was provided. -/
structure SignupRecord where
  email : String
  signed_up_at : String
  name : Option String
  deriving DecidableEq, Repr

/-- The `error` member of the store's answer, as far as the script reads it:
`error.code` and `error.message`, either of which may be missing. -/
structure StoreError where
  code : Option String
  message : Option String
  deriving DecidableEq, Repr

/-- What awaiting `supabase.from(..).insert(..)` produces: an object with
`data` and `error` (`error` is `null` when the row was inserted), or an
exception. -/
inductive StoreResponse where
  | resolved (data : String) (error : Option StoreError)
  | thrown (what : String)
  deriving DecidableEq, Repr

/-- What `supabase.from(table)` does: it throws, or it returns a query builder,
of which the script uses the method `insert(rows)`. -/
inductive FromResult where
  | builder (insert : List SignupRecord → StoreResponse)
  | thrown (what : String)

/-- The store client, as far as the script uses it: `supabase.from`. -/
abbrev Store := String → FromResult

/-- The calls the script makes on its collaborators; entering `showMessage` is
logged as well, so that the log tells which messages were shown. -/
inductive Call where
  | preventDefault
  | showMessage (text type : String)
  | scrollIntoView
  | setTimeout (delay : Nat)
  | focusEmail
  | setLoading (isLoading : Bool)
  | insert (table : String) (rows : List SignupRecord)
  | consoleError (text : String)
  | consoleLog (text : String)
  deriving DecidableEq, Repr

/-- The part of the document the form handling reads and writes. -/
structure Page where
  /-- Field `nameInput.value`. -/
  nameValue : String
  /-- Field `emailInput.value`. -/
  emailValue : String
  /-- Field `messageDiv.textContent`. -/
  messageText : String
  /-- Field `messageDiv.className`. -/
  messageClass : String
  /-- Field `messageDiv.style.display`. -/
  messageDisplay : String
  /-- Field `submitBtn.disabled`. -/
  submitDisabled : Bool
  /-- Field `btnText.style.display`. -/
  btnTextDisplay : String
  /-- Field `btnLoader.style.display`. -/
  btnLoaderDisplay : String
  /-- Whether the email field holds the input focus. -/
  emailFocused : Bool
  /-- The current time in milliseconds. -/
  now : Nat
  /-- Due times of the pending `setTimeout` callbacks of `showMessage`. -/
  timers : List Nat
  /-- The calls made so far, oldest first. -/
  calls : List Call
  deriving DecidableEq, Repr

/-- Append one call to the log. -/
def Page.call (p : Page) (c : Call) : Page :=
  { p with calls := p.calls ++ [c] }

/-- The contents of `window.ENV`, when it is defined. -/
structure Env where
  SUPABASE_URL : Option String
  SUPABASE_ANON_KEY : Option String

/-- The expression `window.ENV?.KEY || ''`. -/
def envOrEmpty (env : Option Env) (key : Env → Option String) : String :=
  match env with
  | none => ""
  | some e => (key e).getD ""

/-- The Supabase initialisation (lines 1-10): the client exists only if both
credentials are non-empty. -/
def initSupabase (env : Option Env) (createClient : String → String → Store) :
    Option Store :=
  let url := envOrEmpty env Env.SUPABASE_URL
  let key := envOrEmpty env Env.SUPABASE_ANON_KEY
  if url ≠ "" ∧ key ≠ "" then some (createClient url key) else none

/-! ## The functions of the form handling -/

/-- The function `showMessage(text, type)`. -/
def showMessage (text type : String) (p : Page) : Page :=
  let p := p.call (.showMessage text type)
  let p := { p with messageText := text }
  let p := { p with messageClass := "message " ++ type }
  let p := { p with messageDisplay := "block" }
  let p := p.call .scrollIntoView
  if type = "success" then
    { p.call (.setTimeout 6000) with timers := p.timers ++ [p.now + 6000] }
  else p

/-- The function `setLoading(isLoading)`. -/
def setLoading (isLoading : Bool) (p : Page) : Page :=
  let p := p.call (.setLoading isLoading)
  let p := { p with submitDisabled := isLoading }
  let p := { p with btnTextDisplay := if isLoading then "none" else "inline" }
  { p with btnLoaderDisplay := if isLoading then "inline" else "none" }

/-- The call `emailInput.focus()`. -/
def focusEmail (p : Page) : Page :=
  { p.call .focusEmail with emailFocused := true }

/-- The object `signupData` built inside the `try` block. -/
def signupData (name email isoNow : String) : SignupRecord :=
  let d : SignupRecord := { email := email, signed_up_at := isoNow, name := none }
  if name ≠ "" then { d with name := some name } else d

/-- The expression `error.message || 'Database error. Please contact support.'`. -/
def messageOrDefault (e : StoreError) : String :=
  match e.message with
  | none => "Database error. Please contact support."
  | some m => if m = "" then "Database error. Please contact support." else m

/-- The statements after the `await`, for an answer that did not throw. -/
def onResolved (data : String) (error : Option StoreError) (p : Page) : Page :=
  match error with
  | some e =>
    if e.code = some "23505" then
      let p := showMessage "You're already on the list! We'll be in touch soon." "success" p
      let p := { p with nameValue := "" }
      { p with emailValue := "" }
    else
      let p := p.call (.consoleError "Supabase error details:")
      let p := p.call (.consoleError "Error code:")
      let p := p.call (.consoleError "Error message:")
      showMessage ("Error: " ++ messageOrDefault e) "error" p
  | none =>
    let p := showMessage "Welcome to Echoes! Check your email for next steps." "success" p
    let p := { p with nameValue := "" }
    let p := { p with emailValue := "" }
    p.call (.consoleLog ("New signup: " ++ data))

/-- The `catch` block of `handleSubmit`. -/
def onCaught (p : Page) : Page :=
  let p := p.call (.consoleError "Error submitting form:")
  showMessage "Something went wrong. Please try again." "error" p

/-- How far `handleSubmit` has got: it has returned, or `insert` has been
invoked and the function waits for `response`. -/
inductive Progress where
  | finished (p : Page)
  | awaiting (p : Page) (response : StoreResponse)

/-- The function `handleSubmit(e)` up to its `await`.  `supabase` is the
global client (`none` for `null`), `isoNow` the value of
`new Date().toISOString()`.  When `supabase.from` throws, the `catch` and
`finally` blocks run at once and `insert` is not called. -/
def handleSubmitToAwait (supabase : Option Store) (isoNow : String) (p : Page) : Progress :=
  let p := p.call .preventDefault
  let name := jsTrim p.nameValue
  let email := jsTrim p.emailValue
  let p := { p with messageDisplay := "none" }
  if email = "" then
    let p := showMessage "Please enter your email address" "error" p
    .finished (focusEmail p)
  else if isValidEmail email = false then
    let p := showMessage "Please enter a valid email address" "error" p
    .finished (focusEmail p)
  else
    match supabase with
    | none =>
      let p := showMessage "Service is not configured. Please contact support." "error" p
      .finished
        (p.call (.consoleError "Supabase is not initialized. Check your environment variables."))
    | some store =>
      let p := setLoading true p
      let rows := [signupData name email isoNow]
      match store "beta_signups" with
      | .thrown _ =>
        let p := onCaught p
        .finished (setLoading false p)
      | .builder insert =>
        let p := p.call (.insert "beta_signups" rows)
        .awaiting p (insert rows)

/-- The function `handleSubmit(e)` from its `await` on: the rest of the `try`
block or the `catch` block, then the `finally` block. -/
def handleSubmitFromAwait (response : StoreResponse) (p : Page) : Page :=
  let p :=
    match response with
    | .resolved data error => onResolved data error p
    | .thrown _ => onCaught p
  setLoading false p

/-- The function `handleSubmit(e)`, run to its end. -/
def handleSubmit (supabase : Option Store) (isoNow : String) (p : Page) : Page :=
  match handleSubmitToAwait supabase isoNow p with
  | .finished q => q
  | .awaiting q response => handleSubmitFromAwait response q

/-- The `keydown` listener: Escape hides a message that is displayed. -/
def onKeydown (key : String) (p : Page) : Page :=
  if key = "Escape" ∧ p.messageDisplay = "block" then
    { p with messageDisplay := "none" }
  else p

/-- The callback `showMessage` hands to `setTimeout`. -/
def hideMessage (p : Page) : Page :=
  { p with messageDisplay := "none" }

/-- Let `ms` milliseconds pass: every pending callback whose time has come
runs, in the order it was registered, and is removed from the pending list. -/
def advance (ms : Nat) (p : Page) : Page :=
  let t := p.now + ms
  let due := p.timers.filter (fun d => decide (d ≤ t))
  let p := { p with now := t, timers := p.timers.filter (fun d => decide (t < d)) }
  due.foldl (fun q _ => hideMessage q) p

/-- What can happen to the page: the user edits the fields, submits the form,
presses a key, or time passes. -/
inductive Action where
  | edit (name email : String)
  | submit (supabase : Option Store) (isoNow : String)
  | keydown (key : String)
  | wait (ms : Nat)

/-- Whether an action is one the user performs. -/
def Action.isUserAction : Action → Bool
  | .wait _ => false
  | _ => true

/-- The effect of one action. -/
def step (p : Page) : Action → Page
  | .edit name email => { p with nameValue := name, emailValue := email }
  | .submit supabase isoNow => handleSubmit supabase isoNow p
  | .keydown key => onKeydown key p
  | .wait ms => advance ms p

/-- The effect of a sequence of actions. -/
def run (p : Page) (as : List Action) : Page :=
  as.foldl step p

/-- The calls a submission adds to the log. -/
def submitCalls (supabase : Option Store) (isoNow : String) (p : Page) : List Call :=
  (handleSubmit supabase isoNow p).calls.drop p.calls.length

/-- The row lists handed to `insert` in a list of calls. -/
def insertedRows : List Call → List (List SignupRecord)
  | [] => []
  | .insert _ rows :: cs => rows :: insertedRows cs
  | _ :: cs => insertedRows cs

/-- The types of the messages shown in a list of calls. -/
def shownTypes : List Call → List String
  | [] => []
  | .showMessage _ type :: cs => type :: shownTypes cs
  | _ :: cs => shownTypes cs

/-- The `setLoading` arguments in a list of calls. -/
def loadingCalls : List Call → List Bool
  | [] => []
  | .setLoading b :: cs => b :: loadingCalls cs
  | _ :: cs => loadingCalls cs

/-- The store took the submission: the email was valid, the store was
configured, `from` returned a builder, and the answer of its `insert` was a row
(`error` is `null`) or the conflict code `23505`. -/
def AcceptedByStore (supabase : Option Store) (isoNow : String) (p : Page) : Prop :=
  isValidEmail (jsTrim p.emailValue) = true ∧
  ∃ store insert data, supabase = some store ∧ store "beta_signups" = .builder insert ∧
    (insert [signupData (jsTrim p.nameValue) (jsTrim p.emailValue) isoNow]
        = .resolved data none ∨
     ∃ e, insert [signupData (jsTrim p.nameValue) (jsTrim p.emailValue) isoNow]
        = .resolved data (some e) ∧ e.code = some "23505")

/-- A page with nothing shown and nothing pending. -/
def blankPage (name email : String) : Page :=
  { nameValue := name, emailValue := email, messageText := "", messageClass := "message",
    messageDisplay := "", submitDisabled := false, btnTextDisplay := "", btnLoaderDisplay := "",
    emailFocused := false, now := 0, timers := [], calls := [] }

/-- A store that inserts every row. -/
def acceptingStore : Store :=
  fun _ => .builder (fun _ => .resolved "null" none)

/-- A store that answers every insert with the given error. -/
def failingStore (code message : Option String) : Store :=
  fun _ => .builder (fun _ => .resolved "null" (some ⟨code, message⟩))

/-- A store whose `insert` throws. -/
def throwingStore : Store :=
  fun _ => .builder (fun _ => .thrown "TypeError: Failed to fetch")

/-- A client whose `from` throws. -/
def brokenClient : Store :=
  fun _ => .thrown "TypeError: Invalid URL"

/-- A visit in which a stale timer meets an error message: a first submission
is accepted at time 0 and shows the success message; three seconds later the
user submits the form again, now empty, and gets an error message. -/
def staleTimerVisit : List Action :=
  [.submit (some acceptingStore) "2026-01-01T00:00:00.000Z", .wait 3000,
   .submit (some acceptingStore) "2026-01-01T00:00:03.000Z"]

/-! ## The regular expression -/

theorem matchAtoms_nil (s : List Char) : matchAtoms [] s = true ↔ s = [] := by
  cases s <;> simp [matchAtoms]

theorem matchAtoms_one (p : Char → Bool) (rest : List Atom) (s : List Char) :
    matchAtoms (⟨p, .one⟩ :: rest) s = true ↔
      ∃ c b, s = c :: b ∧ p c = true ∧ matchAtoms rest b = true := by
  cases s with
  | nil => simp [matchAtoms]
  | cons x xs =>
    simp only [matchAtoms, Bool.and_eq_true, List.cons.injEq]
    constructor
    · rintro ⟨hx, hxs⟩
      exact ⟨x, xs, ⟨rfl, rfl⟩, hx, hxs⟩
    · rintro ⟨c, b, ⟨rfl, rfl⟩, hc, hb⟩
      exact ⟨hc, hb⟩

theorem matchAtoms_plus (p : Char → Bool) (rest : List Atom) (s : List Char) :
    matchAtoms (⟨p, .plus⟩ :: rest) s = true ↔
      ∃ a b, s = a ++ b ∧ a ≠ [] ∧ (∀ c ∈ a, p c = true) ∧ matchAtoms rest b = true := by
  induction s with
  | nil =>
    constructor
    · intro h
      simp [matchAtoms] at h
    · rintro ⟨a, b, hs, ha, -, -⟩
      cases a with
      | nil => exact absurd rfl ha
      | cons x xs => simp at hs
  | cons x xs ih =>
    constructor
    · intro h
      simp only [matchAtoms, Bool.and_eq_true, Bool.or_eq_true] at h
      obtain ⟨hx, hrest⟩ := h
      rcases hrest with hmore | hstop
      · obtain ⟨a, b, hs, -, hall, hb⟩ := ih.mp hmore
        refine ⟨x :: a, b, by simp [hs], by simp, ?_, hb⟩
        intro c hc
        rcases List.mem_cons.mp hc with rfl | hc
        · exact hx
        · exact hall c hc
      · exact ⟨[x], xs, rfl, by simp, by simpa using hx, hstop⟩
    · rintro ⟨a, b, hs, ha, hall, hb⟩
      cases a with
      | nil => exact absurd rfl ha
      | cons y ys =>
        simp only [List.cons_append, List.cons.injEq] at hs
        obtain ⟨rfl, rfl⟩ := hs
        simp only [matchAtoms, Bool.and_eq_true, Bool.or_eq_true]
        refine ⟨hall x (List.mem_cons_self _ _), ?_⟩
        by_cases hys : ys = []
        · subst hys
          right
          simpa using hb
        · left
          exact ih.mpr ⟨ys, b, rfl, hys, fun c hc => hall c (List.mem_cons_of_mem _ hc), hb⟩

/-- The language of the pattern, piece by piece. -/
theorem isValidEmail_iff_pieces (s : String) :
    isValidEmail s = true ↔
      ∃ l d t, s.data = l ++ '@' :: (d ++ '.' :: t) ∧ l ≠ [] ∧ d ≠ [] ∧ t ≠ [] ∧
        (∀ c ∈ l, notSpaceNorAt c = true) ∧ (∀ c ∈ d, notSpaceNorAt c = true) ∧
        (∀ c ∈ t, notSpaceNorAt c = true) := by
  unfold isValidEmail emailRegex
  constructor
  · intro h
    obtain ⟨l, r1, h1, hl, hlc, h⟩ := (matchAtoms_plus _ _ _).mp h
    obtain ⟨c1, r2, h2, hc1, h⟩ := (matchAtoms_one _ _ _).mp h
    obtain ⟨d, r3, h3, hd, hdc, h⟩ := (matchAtoms_plus _ _ _).mp h
    obtain ⟨c2, r4, h4, hc2, h⟩ := (matchAtoms_one _ _ _).mp h
    obtain ⟨t, r5, h5, ht, htc, h⟩ := (matchAtoms_plus _ _ _).mp h
    have h6 := (matchAtoms_nil _).mp h
    have e1 : c1 = '@' := by simpa using hc1
    have e2 : c2 = '.' := by simpa using hc2
    subst h6 e1 e2 h5 h4 h3 h2
    exact ⟨l, d, t, by simpa using h1, hl, hd, ht, hlc, hdc, htc⟩
  · rintro ⟨l, d, t, hs, hl, hd, ht, hlc, hdc, htc⟩
    rw [hs]
    refine (matchAtoms_plus _ _ _).mpr ⟨l, _, rfl, hl, hlc, ?_⟩
    refine (matchAtoms_one _ _ _).mpr ⟨'@', _, rfl, by simp, ?_⟩
    refine (matchAtoms_plus _ _ _).mpr ⟨d, _, rfl, hd, hdc, ?_⟩
    refine (matchAtoms_one _ _ _).mpr ⟨'.', _, rfl, by simp, ?_⟩
    refine (matchAtoms_plus _ _ _).mpr ⟨t, [], by simp, ht, htc, ?_⟩
    exact (matchAtoms_nil _).mpr rfl

theorem notSpaceNorAt_iff (c : Char) :
    notSpaceNorAt c = true ↔ isWhiteSpace c = false ∧ c ≠ '@' := by
  simp [notSpaceNorAt]

theorem count_at_of_clean (l : List Char) (h : ∀ c ∈ l, notSpaceNorAt c = true) :
    l.count '@' = 0 := by
  rw [List.count_eq_zero]
  intro hmem
  have := (notSpaceNorAt_iff _).mp (h _ hmem)
  exact this.2 rfl

/-- The pattern accepts exactly the strings of the shape the specification
describes. -/
theorem isValidEmail_iff_shape (s : String) :
    isValidEmail s = true ↔ EmailShape s.data := by
  rw [isValidEmail_iff_pieces]
  constructor
  · rintro ⟨l, d, t, hs, hl, hd, ht, hlc, hdc, htc⟩
    refine ⟨?_, ?_, l, d ++ '.' :: t, hs, hl, d, t, rfl, hd, ht⟩
    · intro c hc
      rw [hs] at hc
      simp only [List.mem_append, List.mem_cons] at hc
      rcases hc with h | rfl | h | rfl | h
      · exact ((notSpaceNorAt_iff _).mp (hlc c h)).1
      · decide
      · exact ((notSpaceNorAt_iff _).mp (hdc c h)).1
      · decide
      · exact ((notSpaceNorAt_iff _).mp (htc c h)).1
    · rw [hs]
      simp [List.count_cons, count_at_of_clean l hlc, count_at_of_clean d hdc,
        count_at_of_clean t htc]
  · rintro ⟨hws, hcount, l, rest, hs, hl, d, t, hrest, hd, ht⟩
    subst hrest
    have hcnt : l.count '@' = 0 ∧ d.count '@' = 0 ∧ t.count '@' = 0 := by
      rw [hs] at hcount
      simp [List.count_cons] at hcount
      omega
    have clean : ∀ m : List Char, m.count '@' = 0 → (∀ c ∈ m, c ∈ s.data) →
        ∀ c ∈ m, notSpaceNorAt c = true := by
      intro m hm hsub c hc
      refine (notSpaceNorAt_iff c).mpr ⟨hws c (hsub c hc), ?_⟩
      rintro rfl
      exact (List.count_eq_zero.mp hm) hc
    refine ⟨l, d, t, hs, hl, hd, ht, clean l hcnt.1 ?_, clean d hcnt.2.1 ?_, clean t hcnt.2.2 ?_⟩
    · intro c hc
      rw [hs]
      simp [hc]
    · intro c hc
      rw [hs]
      simp [hc]
    · intro c hc
      rw [hs]
      simp [hc]

/-- C10: `isValidEmail(s)` is true exactly when `s` has no white space, exactly
one `@`, at least one character before it, and after it a `.` with at least one
character on each side; the eight sample addresses of the claim are classified
as it says. -/
theorem C10_isValidEmail_characterised :
    (∀ s : String, isValidEmail s = true ↔ EmailShape s.data) ∧
    isValidEmail "a@b.c" = true ∧ isValidEmail "a@b..c" = true ∧
    isValidEmail "a@b" = false ∧ isValidEmail "a@.c" = false ∧
    isValidEmail "a@b." = false ∧ isValidEmail "@b.c" = false ∧
    isValidEmail "a@b@c.d" = false ∧ isValidEmail "a b@c.d" = false := by
  refine ⟨isValidEmail_iff_shape, ?_, ?_, ?_, ?_, ?_, ?_, ?_, ?_⟩ <;> decide

/-! ## `trim` -/

theorem trimChars_eq_nil (cs : List Char) :
    trimChars cs = [] ↔ ∀ c ∈ cs, isWhiteSpace c = true := by
  unfold trimChars
  rw [List.reverse_eq_nil_iff, List.dropWhile_eq_nil_iff]
  constructor
  · intro h
    rw [← List.dropWhile_eq_nil_iff]
    cases hd : cs.dropWhile isWhiteSpace with
    | nil => rfl
    | cons x xs =>
      have hx : isWhiteSpace x = true := h x (by simp [hd])
      have := List.head_dropWhile_not isWhiteSpace cs (by simp [hd])
      simp [hd, hx] at this
  · intro h c hc
    rw [(List.dropWhile_eq_nil_iff).mpr h] at hc
    simp at hc

theorem jsTrim_eq_empty (s : String) :
    jsTrim s = "" ↔ ∀ c ∈ s.data, isWhiteSpace c = true := by
  rw [← trimChars_eq_nil]
  unfold jsTrim
  constructor
  · intro h
    exact congrArg String.data h
  · intro h
    rw [h]

theorem isValidEmail_empty : isValidEmail "" = false := by decide

theorem ne_empty_of_valid {s : String} (h : isValidEmail s = true) : s ≠ "" := by
  rintro rfl
  simp [isValidEmail_empty] at h

/-! ## The ways through `handleSubmit` -/

theorem handleSubmit_of_empty (supabase : Option Store) (isoNow : String) (p : Page)
    (h : jsTrim p.emailValue = "") :
    handleSubmit supabase isoNow p =
      focusEmail (showMessage "Please enter your email address" "error"
        { p.call .preventDefault with messageDisplay := "none" }) := by
  simp [handleSubmit, handleSubmitToAwait, Page.call, h]

theorem handleSubmit_of_invalid (supabase : Option Store) (isoNow : String) (p : Page)
    (hne : jsTrim p.emailValue ≠ "") (hbad : isValidEmail (jsTrim p.emailValue) = false) :
    handleSubmit supabase isoNow p =
      focusEmail (showMessage "Please enter a valid email address" "error"
        { p.call .preventDefault with messageDisplay := "none" }) := by
  simp [handleSubmit, handleSubmitToAwait, Page.call, hne, hbad]

theorem handleSubmit_of_unconfigured (isoNow : String) (p : Page)
    (hok : isValidEmail (jsTrim p.emailValue) = true) :
    handleSubmit none isoNow p =
      (showMessage "Service is not configured. Please contact support." "error"
        { p.call .preventDefault with messageDisplay := "none" }).call
        (.consoleError "Supabase is not initialized. Check your environment variables.") := by
  simp [handleSubmit, handleSubmitToAwait, Page.call, ne_empty_of_valid hok, hok]

/-- With a valid email and a builder, the function gets to its `await`. -/
theorem toAwait_of_builder (store : Store) (isoNow : String) (p : Page)
    (insert : List SignupRecord → StoreResponse)
    (hok : isValidEmail (jsTrim p.emailValue) = true)
    (hb : store "beta_signups" = .builder insert) :
    handleSubmitToAwait (some store) isoNow p =
      .awaiting
        ((setLoading true { p.call .preventDefault with messageDisplay := "none" }).call
          (.insert "beta_signups"
            [signupData (jsTrim p.nameValue) (jsTrim p.emailValue) isoNow]))
        (insert [signupData (jsTrim p.nameValue) (jsTrim p.emailValue) isoNow]) := by
  simp [handleSubmitToAwait, Page.call, ne_empty_of_valid hok, hok, hb]

theorem handleSubmit_of_builder (store : Store) (isoNow : String) (p : Page)
    (insert : List SignupRecord → StoreResponse)
    (hok : isValidEmail (jsTrim p.emailValue) = true)
    (hb : store "beta_signups" = .builder insert) :
    handleSubmit (some store) isoNow p =
      handleSubmitFromAwait
        (insert [signupData (jsTrim p.nameValue) (jsTrim p.emailValue) isoNow])
        ((setLoading true { p.call .preventDefault with messageDisplay := "none" }).call
          (.insert "beta_signups"
            [signupData (jsTrim p.nameValue) (jsTrim p.emailValue) isoNow])) := by
  unfold handleSubmit
  rw [toAwait_of_builder store isoNow p insert hok hb]

theorem handleSubmit_of_from_thrown (store : Store) (isoNow : String) (p : Page)
    (what : String)
    (hok : isValidEmail (jsTrim p.emailValue) = true)
    (hb : store "beta_signups" = .thrown what) :
    handleSubmit (some store) isoNow p =
      setLoading false (onCaught
        (setLoading true { p.call .preventDefault with messageDisplay := "none" })) := by
  simp [handleSubmit, handleSubmitToAwait, Page.call, ne_empty_of_valid hok, hok, hb]

/-- C2: when the email field is empty after trimming, nothing is inserted,
`setLoading` is not called, the message is "Please enter your email address"
of kind error and the email field gets the focus, whatever the name field and
the store are; trimming to the empty string means being empty or white space
only. -/
theorem C2_empty_email (supabase : Option Store) (isoNow : String) (p : Page)
    (h : jsTrim p.emailValue = "") :
    submitCalls supabase isoNow p =
      [.preventDefault, .showMessage "Please enter your email address" "error",
       .scrollIntoView, .focusEmail] ∧
    insertedRows (submitCalls supabase isoNow p) = [] ∧
    loadingCalls (submitCalls supabase isoNow p) = [] ∧
    (handleSubmit supabase isoNow p).messageText = "Please enter your email address" ∧
    (handleSubmit supabase isoNow p).messageClass = "message error" ∧
    (handleSubmit supabase isoNow p).messageDisplay = "block" ∧
    (handleSubmit supabase isoNow p).emailFocused = true ∧
    (handleSubmit supabase isoNow p).submitDisabled = p.submitDisabled ∧
    (∀ c ∈ p.emailValue.data, isWhiteSpace c = true) := by
  have hc : submitCalls supabase isoNow p =
      [.preventDefault, .showMessage "Please enter your email address" "error",
       .scrollIntoView, .focusEmail] := by
    simp [submitCalls, handleSubmit_of_empty supabase isoNow p h, focusEmail, showMessage,
      Page.call]
  refine ⟨hc, ?_, ?_, ?_, ?_, ?_, ?_, ?_, (jsTrim_eq_empty _).mp h⟩
  · rw [hc]; rfl
  · rw [hc]; rfl
  all_goals simp [handleSubmit_of_empty supabase isoNow p h, focusEmail, showMessage, Page.call]

theorem C2_empty_email_witness :
    jsTrim (blankPage "Ann" " \t ").emailValue = "" ∧
    insertedRows (submitCalls (some acceptingStore) "t" (blankPage "Ann" " \t ")) = [] ∧
    (handleSubmit (some acceptingStore) "t" (blankPage "Ann" " \t ")).messageText =
      "Please enter your email address" :=
  ⟨by decide,
   (C2_empty_email (some acceptingStore) "t" (blankPage "Ann" " \t ") (by decide)).2.1,
   (C2_empty_email (some acceptingStore) "t" (blankPage "Ann" " \t ") (by decide)).2.2.2.1⟩

/-! ## What reaches the store -/

theorem fromAwait_calls (response : StoreResponse) (q : Page) :
    ∃ mid, (handleSubmitFromAwait response q).calls =
        q.calls ++ mid ++ [Call.setLoading false] ∧
      insertedRows mid = [] ∧ loadingCalls mid = [] := by
  cases response with
  | thrown what =>
    exact ⟨[.consoleError "Error submitting form:",
      .showMessage "Something went wrong. Please try again." "error", .scrollIntoView],
      by simp [handleSubmitFromAwait, onCaught, setLoading, showMessage, Page.call], rfl, rfl⟩
  | resolved data error =>
    cases error with
    | none =>
      exact ⟨[.showMessage "Welcome to Echoes! Check your email for next steps." "success",
        .scrollIntoView, .setTimeout 6000, .consoleLog ("New signup: " ++ data)],
        by simp [handleSubmitFromAwait, onResolved, setLoading, showMessage, Page.call],
        rfl, rfl⟩
    | some e =>
      by_cases hc : e.code = some "23505"
      · exact ⟨[.showMessage "You're already on the list! We'll be in touch soon." "success",
          .scrollIntoView, .setTimeout 6000],
          by simp [handleSubmitFromAwait, onResolved, setLoading, showMessage, Page.call, hc],
          rfl, rfl⟩
      · exact ⟨[.consoleError "Supabase error details:", .consoleError "Error code:",
          .consoleError "Error message:",
          .showMessage ("Error: " ++ messageOrDefault e) "error", .scrollIntoView],
          by simp [handleSubmitFromAwait, onResolved, setLoading, showMessage, Page.call, hc],
          rfl, rfl⟩

theorem insertedRows_append (xs ys : List Call) :
    insertedRows (xs ++ ys) = insertedRows xs ++ insertedRows ys := by
  induction xs with
  | nil => rfl
  | cons x xs ih => cases x <;> simp [insertedRows, ih]

theorem loadingCalls_append (xs ys : List Call) :
    loadingCalls (xs ++ ys) = loadingCalls xs ++ loadingCalls ys := by
  induction xs with
  | nil => rfl
  | cons x xs ih => cases x <;> simp [loadingCalls, ih]

/-- The calls of a submission that gets as far as `insert`. -/
theorem submitCalls_of_builder (store : Store) (isoNow : String) (p : Page)
    (insert : List SignupRecord → StoreResponse)
    (hok : isValidEmail (jsTrim p.emailValue) = true)
    (hb : store "beta_signups" = .builder insert) :
    ∃ mid, submitCalls (some store) isoNow p =
        [.preventDefault, .setLoading true,
         .insert "beta_signups" [signupData (jsTrim p.nameValue) (jsTrim p.emailValue) isoNow]]
        ++ mid ++ [.setLoading false] ∧
      insertedRows mid = [] ∧ loadingCalls mid = [] := by
  obtain ⟨mid, hmid, h1, h2⟩ := fromAwait_calls
    (insert [signupData (jsTrim p.nameValue) (jsTrim p.emailValue) isoNow])
    ((setLoading true { p.call .preventDefault with messageDisplay := "none" }).call
      (.insert "beta_signups" [signupData (jsTrim p.nameValue) (jsTrim p.emailValue) isoNow]))
  refine ⟨mid, ?_, h1, h2⟩
  simp [setLoading, Page.call] at hmid
  simp [submitCalls, handleSubmit_of_builder store isoNow p insert hok hb, setLoading,
    Page.call, hmid]

/-- The calls of a submission whose `from` throws: no `insert` among them. -/
theorem submitCalls_of_from_thrown (store : Store) (isoNow : String) (p : Page)
    (what : String)
    (hok : isValidEmail (jsTrim p.emailValue) = true)
    (hb : store "beta_signups" = .thrown what) :
    submitCalls (some store) isoNow p =
      [.preventDefault, .setLoading true, .consoleError "Error submitting form:",
       .showMessage "Something went wrong. Please try again." "error", .scrollIntoView,
       .setLoading false] := by
  simp [submitCalls, handleSubmit_of_from_thrown store isoNow p what hok hb, onCaught,
    setLoading, showMessage, Page.call]

theorem submitCalls_of_invalid (supabase : Option Store) (isoNow : String) (p : Page)
    (hne : jsTrim p.emailValue ≠ "") (hbad : isValidEmail (jsTrim p.emailValue) = false) :
    submitCalls supabase isoNow p =
      [.preventDefault, .showMessage "Please enter a valid email address" "error",
       .scrollIntoView, .focusEmail] := by
  simp [submitCalls, handleSubmit_of_invalid supabase isoNow p hne hbad, focusEmail,
    showMessage, Page.call]

theorem submitCalls_of_empty (supabase : Option Store) (isoNow : String) (p : Page)
    (h : jsTrim p.emailValue = "") :
    submitCalls supabase isoNow p =
      [.preventDefault, .showMessage "Please enter your email address" "error",
       .scrollIntoView, .focusEmail] := by
  simp [submitCalls, handleSubmit_of_empty supabase isoNow p h, focusEmail, showMessage,
    Page.call]

theorem submitCalls_of_unconfigured (isoNow : String) (p : Page)
    (hok : isValidEmail (jsTrim p.emailValue) = true) :
    submitCalls none isoNow p =
      [.preventDefault,
       .showMessage "Service is not configured. Please contact support." "error",
       .scrollIntoView,
       .consoleError "Supabase is not initialized. Check your environment variables."] := by
  simp [submitCalls, handleSubmit_of_unconfigured isoNow p hok, showMessage, Page.call]

theorem signupData_email (name email isoNow : String) :
    (signupData name email isoNow).email = email := by
  unfold signupData
  split <;> rfl

/-- Whatever is inserted carries the trimmed email field, which is valid. -/
theorem inserted_rows_valid (supabase : Option Store) (isoNow : String) (p : Page) :
    ∀ rows ∈ insertedRows (submitCalls supabase isoNow p), ∀ r ∈ rows,
      r.email = jsTrim p.emailValue ∧ r.email ≠ "" ∧ isValidEmail r.email = true := by
  intro rows hrows r hr
  by_cases he : jsTrim p.emailValue = ""
  · rw [submitCalls_of_empty supabase isoNow p he] at hrows
    simp [insertedRows] at hrows
  · cases hv : isValidEmail (jsTrim p.emailValue) with
    | false =>
      rw [submitCalls_of_invalid supabase isoNow p he hv] at hrows
      simp [insertedRows] at hrows
    | true =>
      cases supabase with
      | none =>
        rw [submitCalls_of_unconfigured isoNow p hv] at hrows
        simp [insertedRows] at hrows
      | some store =>
        cases hb : store "beta_signups" with
        | thrown what =>
          rw [submitCalls_of_from_thrown store isoNow p what hv hb] at hrows
          simp [insertedRows] at hrows
        | builder insert =>
          obtain ⟨mid, hcalls, hmid, -⟩ := submitCalls_of_builder store isoNow p insert hv hb
          rw [hcalls] at hrows
          simp [insertedRows_append, insertedRows, hmid] at hrows
          subst hrows
          simp at hr
          subst hr
          rw [signupData_email]
          exact ⟨rfl, he, hv⟩

theorem no_at_invalid (s : String)
    (h : '@' ∉ s.data ∨ ∀ l r, s.data = l ++ '@' :: r → '.' ∉ r) :
    isValidEmail s = false := by
  cases hv : isValidEmail s with
  | false => rfl
  | true =>
    exfalso
    obtain ⟨l, d, t, hs, -⟩ := (isValidEmail_iff_pieces s).mp hv
    rcases h with h | h
    · exact h (by rw [hs]; simp)
    · exact h l (d ++ '.' :: t) hs (by simp)

/-- C1: when the trimmed email is non-empty and fails the pattern, nothing is
inserted, the message is "Please enter a valid email address" of kind error,
the email field gets the focus and `setLoading` is not called; an email with no
`@`, or with no `.` after the `@`, fails the pattern; and every record handed
to the store has a non-empty email that passes `isValidEmail`. -/
theorem C1_invalid_email :
    (∀ (supabase : Option Store) (isoNow : String) (p : Page),
      jsTrim p.emailValue ≠ "" → isValidEmail (jsTrim p.emailValue) = false →
        submitCalls supabase isoNow p =
          [.preventDefault, .showMessage "Please enter a valid email address" "error",
           .scrollIntoView, .focusEmail] ∧
        insertedRows (submitCalls supabase isoNow p) = [] ∧
        loadingCalls (submitCalls supabase isoNow p) = [] ∧
        (handleSubmit supabase isoNow p).messageText = "Please enter a valid email address" ∧
        (handleSubmit supabase isoNow p).messageClass = "message error" ∧
        (handleSubmit supabase isoNow p).messageDisplay = "block" ∧
        (handleSubmit supabase isoNow p).emailFocused = true ∧
        (handleSubmit supabase isoNow p).submitDisabled = p.submitDisabled) ∧
    (∀ s : String, ('@' ∉ s.data ∨ ∀ l r, s.data = l ++ '@' :: r → '.' ∉ r) →
      isValidEmail s = false) ∧
    (∀ (supabase : Option Store) (isoNow : String) (p : Page),
      ∀ rows ∈ insertedRows (submitCalls supabase isoNow p), ∀ r ∈ rows,
        r.email ≠ "" ∧ isValidEmail r.email = true) := by
  refine ⟨?_, no_at_invalid, ?_⟩
  · intro supabase isoNow p hne hbad
    have hc := submitCalls_of_invalid supabase isoNow p hne hbad
    refine ⟨hc, ?_, ?_, ?_, ?_, ?_, ?_, ?_⟩
    · rw [hc]; rfl
    · rw [hc]; rfl
    all_goals
      simp [handleSubmit_of_invalid supabase isoNow p hne hbad, focusEmail, showMessage,
        Page.call]
  · intro supabase isoNow p rows hrows r hr
    exact (inserted_rows_valid supabase isoNow p rows hrows r hr).2

theorem C1_invalid_email_witness :
    jsTrim (blankPage "Ann" " bad-email ").emailValue ≠ "" ∧
    isValidEmail (jsTrim (blankPage "Ann" " bad-email ").emailValue) = false ∧
    insertedRows (submitCalls (some acceptingStore) "t" (blankPage "Ann" " bad-email ")) = [] ∧
    (handleSubmit (some acceptingStore) "t" (blankPage "Ann" " bad-email ")).messageText =
      "Please enter a valid email address" :=
  ⟨by decide, by decide,
   (C1_invalid_email.1 (some acceptingStore) "t" (blankPage "Ann" " bad-email ")
      (by decide) (by decide)).2.1,
   (C1_invalid_email.1 (some acceptingStore) "t" (blankPage "Ann" " bad-email ")
      (by decide) (by decide)).2.2.2.1⟩

/-- C3 as stated fails for a client whose `from` throws: the email is valid
and the store is configured, yet the submission makes no `insert` call. -/
theorem C3_no_insert_when_from_throws :
    isValidEmail (jsTrim (blankPage "Ann" "a@b.com").emailValue) = true ∧
    insertedRows (submitCalls (some brokenClient) "t" (blankPage "Ann" "a@b.com")) = [] ∧
    ¬ ∃ r, insertedRows (submitCalls (some brokenClient) "t" (blankPage "Ann" "a@b.com"))
        = [[r]] := by
  have h0 : insertedRows (submitCalls (some brokenClient) "t" (blankPage "Ann" "a@b.com"))
      = [] := by decide
  refine ⟨by decide, h0, ?_⟩
  rintro ⟨r, hr⟩
  rw [h0] at hr
  exact List.noConfusion hr

/-- C3, amended: with a configured store and a valid trimmed email, when
`supabase.from` returns a builder `insert` is called exactly once with exactly
one record, whose email is the trimmed email field and which has a name exactly
when the trimmed name field is non-empty, the name then being the trimmed name;
when `supabase.from` throws, `insert` is not called. -/
theorem C3_one_insert_unless_from_throws (store : Store) (isoNow : String) (p : Page)
    (hok : isValidEmail (jsTrim p.emailValue) = true) :
    (∀ insert, store "beta_signups" = .builder insert →
      ∃ r, insertedRows (submitCalls (some store) isoNow p) = [[r]] ∧
        r.email = jsTrim p.emailValue ∧
        (r.name ≠ none ↔ jsTrim p.nameValue ≠ "") ∧
        (∀ n, r.name = some n → n = jsTrim p.nameValue)) ∧
    (∀ what, store "beta_signups" = .thrown what →
      insertedRows (submitCalls (some store) isoNow p) = []) := by
  constructor
  · intro insert hb
    obtain ⟨mid, hcalls, hmid, -⟩ := submitCalls_of_builder store isoNow p insert hok hb
    refine ⟨signupData (jsTrim p.nameValue) (jsTrim p.emailValue) isoNow, ?_,
      signupData_email _ _ _, ?_, ?_⟩
    · rw [hcalls]
      simp [insertedRows_append, insertedRows, hmid]
    · unfold signupData
      by_cases hn : jsTrim p.nameValue = "" <;> simp [hn]
    · intro n
      unfold signupData
      by_cases hn : jsTrim p.nameValue = "" <;> simp [hn]
      intro h
      exact h.symm
  · intro what hb
    rw [submitCalls_of_from_thrown store isoNow p what hok hb]
    rfl

theorem C3_one_insert_unless_from_throws_witness :
    isValidEmail (jsTrim (blankPage " Ann " " a@b.com ").emailValue) = true ∧
    ∃ r, insertedRows (submitCalls (some acceptingStore) "t" (blankPage " Ann " " a@b.com "))
        = [[r]] ∧
      r.email = jsTrim (blankPage " Ann " " a@b.com ").emailValue ∧
      (r.name ≠ none ↔ jsTrim (blankPage " Ann " " a@b.com ").nameValue ≠ "") ∧
      (∀ n, r.name = some n → n = jsTrim (blankPage " Ann " " a@b.com ").nameValue) :=
  ⟨by decide,
   (C3_one_insert_unless_from_throws acceptingStore "t" (blankPage " Ann " " a@b.com ")
      (by decide)).1 (fun _ => .resolved "null" none) rfl⟩

/-- A submission makes an `insert` call only with a valid email and a client
whose `from` returns a builder. -/
theorem reaches_store (supabase : Option Store) (isoNow : String) (p : Page)
    (hreach : insertedRows (submitCalls supabase isoNow p) ≠ []) :
    isValidEmail (jsTrim p.emailValue) = true ∧
    ∃ store insert, supabase = some store ∧ store "beta_signups" = .builder insert := by
  by_cases he : jsTrim p.emailValue = ""
  · rw [submitCalls_of_empty supabase isoNow p he] at hreach
    exact absurd rfl hreach
  · cases hv : isValidEmail (jsTrim p.emailValue) with
    | false =>
      rw [submitCalls_of_invalid supabase isoNow p he hv] at hreach
      exact absurd rfl hreach
    | true =>
      cases supabase with
      | none =>
        rw [submitCalls_of_unconfigured isoNow p hv] at hreach
        exact absurd rfl hreach
      | some store =>
        cases hb : store "beta_signups" with
        | thrown what =>
          rw [submitCalls_of_from_thrown store isoNow p what hv hb] at hreach
          exact absurd rfl hreach
        | builder insert => exact ⟨rfl, store, insert, rfl, hb⟩

theorem fromAwait_enabled (response : StoreResponse) (q : Page) :
    (handleSubmitFromAwait response q).submitDisabled = false ∧
    (handleSubmitFromAwait response q).btnTextDisplay = "inline" ∧
    (handleSubmitFromAwait response q).btnLoaderDisplay = "none" := by
  simp [handleSubmitFromAwait, setLoading]

/-- Whenever a submission calls `setLoading` at all, also when `from` throws,
it ends with the submit control enabled and the label restored. -/
theorem loading_always_released (supabase : Option Store) (isoNow : String) (p : Page)
    (hload : loadingCalls (submitCalls supabase isoNow p) ≠ []) :
    (handleSubmit supabase isoNow p).submitDisabled = false ∧
    (handleSubmit supabase isoNow p).btnTextDisplay = "inline" ∧
    (handleSubmit supabase isoNow p).btnLoaderDisplay = "none" := by
  by_cases he : jsTrim p.emailValue = ""
  · rw [submitCalls_of_empty supabase isoNow p he] at hload
    exact absurd rfl hload
  · cases hv : isValidEmail (jsTrim p.emailValue) with
    | false =>
      rw [submitCalls_of_invalid supabase isoNow p he hv] at hload
      exact absurd rfl hload
    | true =>
      cases supabase with
      | none =>
        rw [submitCalls_of_unconfigured isoNow p hv] at hload
        exact absurd rfl hload
      | some store =>
        cases hb : store "beta_signups" with
        | thrown what =>
          simp [handleSubmit_of_from_thrown store isoNow p what hv hb, setLoading]
        | builder insert =>
          rw [handleSubmit_of_builder store isoNow p insert hv hb]
          exact fromAwait_enabled _ _

/-- C4: a submission that reaches the store call calls `setLoading(true)`
right before `insert` and `setLoading(false)` as its last call, with no other
`setLoading` or `insert` in between; when `insert` is invoked the submit
control is disabled and the loader shown in place of the label; and whatever
the store then answers (a row, the conflict code, another error) or throws,
the submission ends with the submit control enabled and the label restored. -/
theorem C4_loading_bracket (supabase : Option Store) (isoNow : String) (p : Page)
    (hreach : insertedRows (submitCalls supabase isoNow p) ≠ []) :
    (∃ rows mid, submitCalls supabase isoNow p =
        [.preventDefault, .setLoading true, .insert "beta_signups" rows] ++ mid ++
          [.setLoading false] ∧
      insertedRows mid = [] ∧ loadingCalls mid = []) ∧
    (∃ q response rows, handleSubmitToAwait supabase isoNow p = .awaiting q response ∧
      q.calls = p.calls ++ [.preventDefault, .setLoading true, .insert "beta_signups" rows] ∧
      q.submitDisabled = true ∧ q.btnTextDisplay = "none" ∧ q.btnLoaderDisplay = "inline" ∧
      handleSubmit supabase isoNow p = handleSubmitFromAwait response q ∧
      ∀ answer : StoreResponse,
        (handleSubmitFromAwait answer q).submitDisabled = false ∧
        (handleSubmitFromAwait answer q).btnTextDisplay = "inline" ∧
        (handleSubmitFromAwait answer q).btnLoaderDisplay = "none") ∧
    (handleSubmit supabase isoNow p).submitDisabled = false ∧
    (handleSubmit supabase isoNow p).btnTextDisplay = "inline" ∧
    (handleSubmit supabase isoNow p).btnLoaderDisplay = "none" := by
  obtain ⟨hok, store, insert, rfl, hb⟩ := reaches_store supabase isoNow p hreach
  obtain ⟨mid, hcalls, h1, h2⟩ := submitCalls_of_builder store isoNow p insert hok hb
  have hrun := handleSubmit_of_builder store isoNow p insert hok hb
  refine ⟨⟨_, mid, hcalls, h1, h2⟩,
    ⟨_, _, [signupData (jsTrim p.nameValue) (jsTrim p.emailValue) isoNow],
      toAwait_of_builder store isoNow p insert hok hb, ?_, ?_, ?_, ?_, hrun,
      fun answer => fromAwait_enabled answer _⟩, ?_⟩
  · simp [setLoading, Page.call]
  · simp [setLoading, Page.call]
  · simp [setLoading, Page.call]
  · simp [setLoading, Page.call]
  · rw [hrun]
    exact fromAwait_enabled _ _

theorem C4_loading_bracket_witness :
    insertedRows (submitCalls (some throwingStore) "t" (blankPage "" "a@b.com")) ≠ [] ∧
    (∃ q response rows,
      handleSubmitToAwait (some throwingStore) "t" (blankPage "" "a@b.com")
        = .awaiting q response ∧
      q.calls = (blankPage "" "a@b.com").calls ++
        [.preventDefault, .setLoading true, .insert "beta_signups" rows] ∧
      q.submitDisabled = true ∧ q.btnTextDisplay = "none" ∧ q.btnLoaderDisplay = "inline" ∧
      handleSubmit (some throwingStore) "t" (blankPage "" "a@b.com")
        = handleSubmitFromAwait response q ∧
      ∀ answer : StoreResponse,
        (handleSubmitFromAwait answer q).submitDisabled = false ∧
        (handleSubmitFromAwait answer q).btnTextDisplay = "inline" ∧
        (handleSubmitFromAwait answer q).btnLoaderDisplay = "none") ∧
    (handleSubmit (some throwingStore) "t" (blankPage "" "a@b.com")).submitDisabled = false ∧
    (handleSubmit (some throwingStore) "t" (blankPage "" "a@b.com")).btnTextDisplay
      = "inline" :=
  ⟨by decide,
   (C4_loading_bracket (some throwingStore) "t" (blankPage "" "a@b.com") (by decide)).2.1,
   (C4_loading_bracket (some throwingStore) "t" (blankPage "" "a@b.com") (by decide)).2.2.1,
   (C4_loading_bracket (some throwingStore) "t" (blankPage "" "a@b.com") (by decide)).2.2.2.1⟩

/-- C5: when the store answers with an error whose code is `23505`, whatever
its message, the message shown is "You're already on the list! We'll be in
touch soon." of kind success, both fields are set to the empty string, and the
only message shown during the submission is that success message. -/
theorem C5_duplicate_is_success (store : Store) (isoNow : String) (p : Page)
    (insert : List SignupRecord → StoreResponse) (data : String) (e : StoreError)
    (hok : isValidEmail (jsTrim p.emailValue) = true)
    (hb : store "beta_signups" = .builder insert)
    (hresp : insert [signupData (jsTrim p.nameValue) (jsTrim p.emailValue) isoNow]
      = .resolved data (some e))
    (hcode : e.code = some "23505") :
    (handleSubmit (some store) isoNow p).messageText
      = "You're already on the list! We'll be in touch soon." ∧
    (handleSubmit (some store) isoNow p).messageClass = "message success" ∧
    (handleSubmit (some store) isoNow p).messageDisplay = "block" ∧
    (handleSubmit (some store) isoNow p).nameValue = "" ∧
    (handleSubmit (some store) isoNow p).emailValue = "" ∧
    shownTypes (submitCalls (some store) isoNow p) = ["success"] := by
  have hrun := handleSubmit_of_builder store isoNow p insert hok hb
  rw [hresp] at hrun
  refine ⟨?_, ?_, ?_, ?_, ?_, ?_⟩ <;>
    simp [submitCalls, hrun, handleSubmitFromAwait, onResolved, hcode, showMessage, setLoading,
      Page.call, shownTypes]

theorem C5_duplicate_is_success_witness :
    isValidEmail (jsTrim (blankPage "Ann" "dup@x.com").emailValue) = true ∧
    (handleSubmit (some (failingStore (some "23505") (some "duplicate key"))) "t"
      (blankPage "Ann" "dup@x.com")).messageText
      = "You're already on the list! We'll be in touch soon." ∧
    (handleSubmit (some (failingStore (some "23505") (some "duplicate key"))) "t"
      (blankPage "Ann" "dup@x.com")).emailValue = "" :=
  ⟨by decide,
   (C5_duplicate_is_success (failingStore (some "23505") (some "duplicate key")) "t"
      (blankPage "Ann" "dup@x.com")
      (fun _ => .resolved "null" (some ⟨some "23505", some "duplicate key"⟩))
      "null" ⟨some "23505", some "duplicate key"⟩
      (by decide) rfl rfl rfl).1,
   (C5_duplicate_is_success (failingStore (some "23505") (some "duplicate key")) "t"
      (blankPage "Ann" "dup@x.com")
      (fun _ => .resolved "null" (some ⟨some "23505", some "duplicate key"⟩))
      "null" ⟨some "23505", some "duplicate key"⟩
      (by decide) rfl rfl rfl).2.2.2.2.1⟩

/-- C6: when the store answers with an error whose code is not `23505`, the
message shown has kind error and reads "Error: " followed by the error's
message, or "Error: Database error. Please contact support." when that message
is empty or absent; the name and email fields keep their values. -/
theorem C6_other_store_error (store : Store) (isoNow : String) (p : Page)
    (insert : List SignupRecord → StoreResponse) (data : String) (e : StoreError)
    (hok : isValidEmail (jsTrim p.emailValue) = true)
    (hb : store "beta_signups" = .builder insert)
    (hresp : insert [signupData (jsTrim p.nameValue) (jsTrim p.emailValue) isoNow]
      = .resolved data (some e))
    (hcode : e.code ≠ some "23505") :
    (∀ m, e.message = some m → m ≠ "" →
      (handleSubmit (some store) isoNow p).messageText = "Error: " ++ m) ∧
    (e.message = none ∨ e.message = some "" →
      (handleSubmit (some store) isoNow p).messageText
        = "Error: Database error. Please contact support.") ∧
    (handleSubmit (some store) isoNow p).messageClass = "message error" ∧
    (handleSubmit (some store) isoNow p).messageDisplay = "block" ∧
    (handleSubmit (some store) isoNow p).nameValue = p.nameValue ∧
    (handleSubmit (some store) isoNow p).emailValue = p.emailValue := by
  have hrun := handleSubmit_of_builder store isoNow p insert hok hb
  rw [hresp] at hrun
  refine ⟨?_, ?_, ?_, ?_, ?_, ?_⟩
  · intro m hm hne
    simp [hrun, handleSubmitFromAwait, onResolved, hcode, showMessage, setLoading, Page.call,
      messageOrDefault, hm, hne]
  · rintro (hm | hm) <;>
      simp [hrun, handleSubmitFromAwait, onResolved, hcode, showMessage, setLoading, Page.call,
        messageOrDefault, hm]
  all_goals
    simp [hrun, handleSubmitFromAwait, onResolved, hcode, showMessage, setLoading, Page.call]

theorem C6_other_store_error_witness :
    isValidEmail (jsTrim (blankPage "Ann" "a@b.com").emailValue) = true ∧
    (handleSubmit (some (failingStore (some "42501") (some "permission denied"))) "t"
      (blankPage "Ann" "a@b.com")).messageText = "Error: permission denied" ∧
    (handleSubmit (some (failingStore (some "42501") (some "permission denied"))) "t"
      (blankPage "Ann" "a@b.com")).emailValue = "a@b.com" :=
  ⟨by decide,
   (C6_other_store_error (failingStore (some "42501") (some "permission denied")) "t"
      (blankPage "Ann" "a@b.com")
      (fun _ => .resolved "null" (some ⟨some "42501", some "permission denied"⟩))
      "null" ⟨some "42501", some "permission denied"⟩
      (by decide) rfl rfl (by decide)).1 "permission denied" rfl (by decide),
   (C6_other_store_error (failingStore (some "42501") (some "permission denied")) "t"
      (blankPage "Ann" "a@b.com")
      (fun _ => .resolved "null" (some ⟨some "42501", some "permission denied"⟩))
      "null" ⟨some "42501", some "permission denied"⟩
      (by decide) rfl rfl (by decide)).2.2.2.2.2⟩

theorem initSupabase_eq_none (env : Option Env) (createClient : String → String → Store) :
    initSupabase env createClient = none ↔
      envOrEmpty env Env.SUPABASE_URL = "" ∨ envOrEmpty env Env.SUPABASE_ANON_KEY = "" := by
  unfold initSupabase
  by_cases hu : envOrEmpty env Env.SUPABASE_URL = "" <;>
    by_cases hk : envOrEmpty env Env.SUPABASE_ANON_KEY = "" <;> simp [hu, hk]

/-- C7: `supabase` is `null` exactly when the URL or the key is empty; then a
submission with a valid trimmed email shows "Service is not configured. Please
contact support." of kind error, makes no `insert` call and never calls
`setLoading`. -/
theorem C7_unconfigured_store (env : Option Env) (createClient : String → String → Store)
    (isoNow : String) (p : Page)
    (hok : isValidEmail (jsTrim p.emailValue) = true)
    (hcfg : envOrEmpty env Env.SUPABASE_URL = "" ∨ envOrEmpty env Env.SUPABASE_ANON_KEY = "") :
    initSupabase env createClient = none ∧
    (handleSubmit (initSupabase env createClient) isoNow p).messageText
      = "Service is not configured. Please contact support." ∧
    (handleSubmit (initSupabase env createClient) isoNow p).messageClass = "message error" ∧
    (handleSubmit (initSupabase env createClient) isoNow p).messageDisplay = "block" ∧
    insertedRows (submitCalls (initSupabase env createClient) isoNow p) = [] ∧
    loadingCalls (submitCalls (initSupabase env createClient) isoNow p) = [] ∧
    (handleSubmit (initSupabase env createClient) isoNow p).submitDisabled
      = p.submitDisabled := by
  have hnone := (initSupabase_eq_none env createClient).mpr hcfg
  rw [hnone]
  refine ⟨rfl, ?_, ?_, ?_, ?_, ?_, ?_⟩
  · simp [handleSubmit_of_unconfigured isoNow p hok, showMessage, Page.call]
  · simp [handleSubmit_of_unconfigured isoNow p hok, showMessage, Page.call]
  · simp [handleSubmit_of_unconfigured isoNow p hok, showMessage, Page.call]
  · rw [submitCalls_of_unconfigured isoNow p hok]; rfl
  · rw [submitCalls_of_unconfigured isoNow p hok]; rfl
  · simp [handleSubmit_of_unconfigured isoNow p hok, showMessage, Page.call]

theorem C7_unconfigured_store_witness :
    isValidEmail (jsTrim (blankPage "" "a@b.com").emailValue) = true ∧
    (envOrEmpty (some ⟨some "https://x.supabase.co", none⟩) Env.SUPABASE_URL = "" ∨
      envOrEmpty (some ⟨some "https://x.supabase.co", none⟩) Env.SUPABASE_ANON_KEY = "") ∧
    (handleSubmit (initSupabase (some ⟨some "https://x.supabase.co", none⟩)
        (fun _ _ => acceptingStore)) "t" (blankPage "" "a@b.com")).messageText
      = "Service is not configured. Please contact support." :=
  ⟨by decide, Or.inr rfl,
   (C7_unconfigured_store (some ⟨some "https://x.supabase.co", none⟩)
      (fun _ _ => acceptingStore) "t" (blankPage "" "a@b.com") (by decide) (Or.inr rfl)).2.1⟩

theorem fields_of_accepted (supabase : Option Store) (isoNow : String) (p : Page)
    (h : AcceptedByStore supabase isoNow p) :
    (handleSubmit supabase isoNow p).nameValue = "" ∧
    (handleSubmit supabase isoNow p).emailValue = "" := by
  obtain ⟨hok, store, insert, data, rfl, hb, hresp⟩ := h
  have hrun := handleSubmit_of_builder store isoNow p insert hok hb
  rcases hresp with hresp | ⟨e, hresp, hcode⟩
  · rw [hresp] at hrun
    constructor <;>
      simp [hrun, handleSubmitFromAwait, onResolved, showMessage, setLoading, Page.call]
  · rw [hresp] at hrun
    constructor <;>
      simp [hrun, handleSubmitFromAwait, onResolved, hcode, showMessage, setLoading, Page.call]

theorem fields_of_not_accepted (supabase : Option Store) (isoNow : String) (p : Page)
    (h : ¬ AcceptedByStore supabase isoNow p) :
    (handleSubmit supabase isoNow p).nameValue = p.nameValue ∧
    (handleSubmit supabase isoNow p).emailValue = p.emailValue := by
  by_cases he : jsTrim p.emailValue = ""
  · constructor <;>
      simp [handleSubmit_of_empty supabase isoNow p he, focusEmail, showMessage, Page.call]
  · cases hv : isValidEmail (jsTrim p.emailValue) with
    | false =>
      constructor <;>
        simp [handleSubmit_of_invalid supabase isoNow p he hv, focusEmail, showMessage,
          Page.call]
    | true =>
      cases supabase with
      | none =>
        constructor <;>
          simp [handleSubmit_of_unconfigured isoNow p hv, showMessage, Page.call]
      | some store =>
        cases hb : store "beta_signups" with
        | thrown what =>
          constructor <;>
            simp [handleSubmit_of_from_thrown store isoNow p what hv hb, onCaught, showMessage,
              setLoading, Page.call]
        | builder insert =>
          have hrun := handleSubmit_of_builder store isoNow p insert hv hb
          cases hresp : insert
              [signupData (jsTrim p.nameValue) (jsTrim p.emailValue) isoNow] with
          | thrown what =>
            rw [hresp] at hrun
            constructor <;>
              simp [hrun, handleSubmitFromAwait, onCaught, showMessage, setLoading, Page.call]
          | resolved data error =>
            rw [hresp] at hrun
            cases error with
            | none => exact absurd ⟨hv, store, insert, data, rfl, hb, Or.inl hresp⟩ h
            | some e =>
              by_cases hcode : e.code = some "23505"
              · exact absurd ⟨hv, store, insert, data, rfl, hb, Or.inr ⟨e, hresp, hcode⟩⟩ h
              · constructor <;>
                  simp [hrun, handleSubmitFromAwait, onResolved, hcode, showMessage,
                    setLoading, Page.call]

/-- C8: a submission sets both fields to the empty string when the store
answers with a row or with the conflict code, and on every other path (empty
email, invalid email, no client, another store error, an exception thrown by
`insert` or by `from`) leaves both fields as they were. -/
theorem C8_fields_cleared_or_kept (supabase : Option Store) (isoNow : String) (p : Page) :
    (AcceptedByStore supabase isoNow p →
      (handleSubmit supabase isoNow p).nameValue = "" ∧
      (handleSubmit supabase isoNow p).emailValue = "") ∧
    (¬ AcceptedByStore supabase isoNow p →
      (handleSubmit supabase isoNow p).nameValue = p.nameValue ∧
      (handleSubmit supabase isoNow p).emailValue = p.emailValue) ∧
    (jsTrim p.emailValue = "" → ¬ AcceptedByStore supabase isoNow p) ∧
    (isValidEmail (jsTrim p.emailValue) = false → ¬ AcceptedByStore supabase isoNow p) ∧
    (supabase = none → ¬ AcceptedByStore supabase isoNow p) ∧
    (∀ store insert data e, supabase = some store → store "beta_signups" = .builder insert →
      insert [signupData (jsTrim p.nameValue) (jsTrim p.emailValue) isoNow]
        = .resolved data (some e) →
      e.code ≠ some "23505" → ¬ AcceptedByStore supabase isoNow p) ∧
    (∀ store insert what, supabase = some store → store "beta_signups" = .builder insert →
      insert [signupData (jsTrim p.nameValue) (jsTrim p.emailValue) isoNow]
        = .thrown what → ¬ AcceptedByStore supabase isoNow p) ∧
    (∀ store what, supabase = some store → store "beta_signups" = .thrown what →
      ¬ AcceptedByStore supabase isoNow p) := by
  refine ⟨fields_of_accepted supabase isoNow p, fields_of_not_accepted supabase isoNow p,
    ?_, ?_, ?_, ?_, ?_, ?_⟩
  · rintro he ⟨hok, -⟩
    exact ne_empty_of_valid hok he
  · rintro hbad ⟨hok, -⟩
    rw [hbad] at hok
    exact Bool.false_ne_true hok
  · rintro rfl ⟨-, store, insert, data, hs, -⟩
    exact Option.noConfusion hs
  · rintro store insert data e rfl hb hresp hcode ⟨-, store2, insert2, data2, hs, hb2, hacc⟩
    obtain rfl := Option.some.inj hs
    rw [hb] at hb2
    obtain rfl := FromResult.builder.inj hb2
    rcases hacc with h | ⟨e2, h, hc2⟩
    · rw [hresp] at h
      simp at h
    · rw [hresp] at h
      simp only [StoreResponse.resolved.injEq, Option.some.injEq] at h
      exact hcode (h.2 ▸ hc2)
  · rintro store insert what rfl hb hresp ⟨-, store2, insert2, data2, hs, hb2, hacc⟩
    obtain rfl := Option.some.inj hs
    rw [hb] at hb2
    obtain rfl := FromResult.builder.inj hb2
    rcases hacc with h | ⟨e2, h, -⟩ <;>
    · rw [hresp] at h
      simp at h
  · rintro store what rfl hb ⟨-, store2, insert2, data2, hs, hb2, -⟩
    obtain rfl := Option.some.inj hs
    rw [hb] at hb2
    exact FromResult.noConfusion hb2

theorem C8_fields_cleared_or_kept_witness :
    AcceptedByStore (some acceptingStore) "t" (blankPage "Ann" "a@b.com") ∧
    (handleSubmit (some acceptingStore) "t" (blankPage "Ann" "a@b.com")).nameValue = "" ∧
    (handleSubmit (some acceptingStore) "t" (blankPage "Ann" "a@b.com")).emailValue = "" :=
  ⟨⟨by decide, acceptingStore, fun _ => .resolved "null" none, "null", rfl, rfl, Or.inl rfl⟩,
   (C8_fields_cleared_or_kept (some acceptingStore) "t" (blankPage "Ann" "a@b.com")).1
     ⟨by decide, acceptingStore, fun _ => .resolved "null" none, "null", rfl, rfl,
      Or.inl rfl⟩⟩

/-! ## Messages and timers -/

/-- Right after `showMessage` the region is displayed with the given text and
kind. -/
theorem showMessage_visible (text type : String) (p : Page) :
    (showMessage text type p).messageText = text ∧
    (showMessage text type p).messageClass = "message " ++ type ∧
    (showMessage text type p).messageDisplay = "block" := by
  unfold showMessage
  by_cases ht : type = "success" <;> simp [ht, Page.call]

theorem hideMessage_fold (due : List Nat) (p : Page) (h : due ≠ []) :
    (due.foldl (fun q _ => hideMessage q) p).messageDisplay = "none" := by
  induction due using List.reverseRecOn with
  | nil => exact absurd rfl h
  | append_singleton xs x _ => simp [List.foldl_append, hideMessage]

/-- Six seconds after a success message is shown the region is hidden. -/
theorem success_hidden_after_six_seconds (text : String) (p : Page) :
    (advance 6000 (showMessage text "success" p)).messageDisplay = "none" := by
  unfold advance
  apply hideMessage_fold
  simp [showMessage, Page.call]

/-- An error message registers no timer. -/
theorem error_sets_no_timer (text : String) (p : Page) :
    (showMessage text "error" p).timers = p.timers := by
  simp [showMessage, Page.call]

/-- C9 fails on `staleTimerVisit`: after it the error message "Please enter
your email address" is displayed and one timer, set by the earlier success
message, is still pending; three more seconds pass without any user action and
the error message is hidden. -/
theorem C9_stale_timer_hides_error_message :
    (run (blankPage "" "a@b.com") staleTimerVisit).messageText
      = "Please enter your email address" ∧
    (run (blankPage "" "a@b.com") staleTimerVisit).messageClass = "message error" ∧
    (run (blankPage "" "a@b.com") staleTimerVisit).messageDisplay = "block" ∧
    (run (blankPage "" "a@b.com") staleTimerVisit).timers = [6000] ∧
    (run (blankPage "" "a@b.com") staleTimerVisit).now = 3000 ∧
    Action.isUserAction (.wait 3000) = false ∧
    (run (blankPage "" "a@b.com") (staleTimerVisit ++ [.wait 3000])).messageClass
      = "message error" ∧
    (run (blankPage "" "a@b.com") (staleTimerVisit ++ [.wait 3000])).messageDisplay
      = "none" := by
  decide

end Echoes
